import Mathlib

/-!
Shallow embedding of the `overscan_margins.py` Inkscape extension.

The numeric type of the Python source (IEEE double) is idealised as `ℚ`;
the `"%.2f"` formatting of CPython is embedded as rounding to the nearest
hundredth (`round`, ties idealised) followed by decimal rendering.
The XML tree of the host document is embedded as a simple element record,
and the in-place mutation done by `inkex.etree.SubElement` is modelled by
functional update (appending the fully built child).
-/

namespace Overscan

/-- Decimal digits of a natural number, most significant first, with explicit
fuel so that the recursion is structural (mirrors ordinary decimal printing
as done by the host language's number formatting). -/
def natDigitsAux : Nat → Nat → List Char
  | 0, _ => []
  | fuel + 1, n =>
      if n < 10 then [Nat.digitChar n]
      else natDigitsAux fuel (n / 10) ++ [Nat.digitChar (n % 10)]

/-- Decimal string of a natural number. -/
def natStr (n : Nat) : String := String.mk (natDigitsAux (n + 1) n)

/-- Two-digit zero-padded rendering of a value below 100 (the fractional part
of a `"%.2f"` conversion). -/
def pad2 (k : Nat) : String := if k < 10 then "0" ++ natStr k else natStr k

/-- Embedding of the Python `"%.2f" % q` conversion: round to the nearest
hundredth and print with exactly two digits after the decimal point. -/
def fmt2 (q : ℚ) : String :=
  let n : Int := round (q * 100)
  (if n < 0 then "-" else "") ++ natStr (n.natAbs / 100) ++ "." ++ pad2 (n.natAbs % 100)

/-- `HorMargin = DrawingWidth * self.options.hormargin / 100`
(overscan_margins.py line 73). -/
def HorMargin (DrawingWidth hormargin : ℚ) : ℚ := DrawingWidth * hormargin / 100

/-- `VertMargin = DrawingWidth * self.options.vertmargin / 100`
(overscan_margins.py line 74): scaled from the drawing WIDTH, not height. -/
def VertMargin (DrawingWidth vertmargin : ℚ) : ℚ := DrawingWidth * vertmargin / 100

/-- The layer name `"Overscan %.2f%%x%.2f%%" % (hormargin, vertmargin)`
(overscan_margins.py line 78). -/
def layerLabel (hormargin vertmargin : ℚ) : String :=
  "Overscan " ++ fmt2 hormargin ++ "%x" ++ fmt2 vertmargin ++ "%"

/-- The tuple of strings joined into the `d` attribute
(overscan_margins.py lines 87-101), in source order. -/
def pathPieces (DrawingWidth DrawingHeight hormargin vertmargin : ℚ) : List String :=
  [ "M" ++ fmt2 0 ++ " " ++ fmt2 0,
    "H" ++ fmt2 DrawingWidth,
    "V" ++ fmt2 DrawingHeight,
    "H" ++ fmt2 0,
    "Z",
    "M " ++ fmt2 (HorMargin DrawingWidth hormargin) ++ " "
        ++ fmt2 (VertMargin DrawingWidth vertmargin),
    "V" ++ fmt2 (DrawingHeight - VertMargin DrawingWidth vertmargin),
    "H" ++ fmt2 (DrawingWidth - HorMargin DrawingWidth hormargin),
    "V" ++ fmt2 (VertMargin DrawingWidth vertmargin),
    "Z" ]

/-- The `d` path-data string: `"".join(...)` of the pieces. -/
def path_d (DrawingWidth DrawingHeight hormargin vertmargin : ℚ) : String :=
  String.join (pathPieces DrawingWidth DrawingHeight hormargin vertmargin)

/-- The generator contract of spec section 4.1: label and path-data string. -/
def generate (width height horizontalPercent verticalPercent : ℚ) : String × String :=
  (layerLabel horizontalPercent verticalPercent,
   path_d width height horizontalPercent verticalPercent)

/-- The absolute path commands appearing in the emitted `d` string. -/
inductive PathCmd where
  | moveAbs (x y : ℚ)
  | horAbs (x : ℚ)
  | vertAbs (y : ℚ)
  | closePath

/-- The command sequence of the emitted path, in source order
(overscan_margins.py lines 89-100): outer rectangle M/H/V/H/Z, then inner
rectangle M/V/H/V/Z. -/
def pathCmds (DrawingWidth DrawingHeight hormargin vertmargin : ℚ) : List PathCmd :=
  [ .moveAbs 0 0,
    .horAbs DrawingWidth,
    .vertAbs DrawingHeight,
    .horAbs 0,
    .closePath,
    .moveAbs (HorMargin DrawingWidth hormargin) (VertMargin DrawingWidth vertmargin),
    .vertAbs (DrawingHeight - VertMargin DrawingWidth vertmargin),
    .horAbs (DrawingWidth - HorMargin DrawingWidth hormargin),
    .vertAbs (VertMargin DrawingWidth vertmargin),
    .closePath ]

/-- SVG path semantics for the command subset used: track the current point,
accumulate the vertices of the current subpath (most recent first), and emit
a finished subpath at each `Z` (after which the current point returns to the
subpath's initial point). -/
def collect : List PathCmd → ℚ × ℚ → List (ℚ × ℚ) → List (List (ℚ × ℚ))
  | [], _, cur => if cur = [] then [] else [cur.reverse]
  | .moveAbs x y :: rest, _, cur =>
      if cur = [] then collect rest (x, y) [(x, y)]
      else cur.reverse :: collect rest (x, y) [(x, y)]
  | .horAbs x :: rest, pos, cur => collect rest (x, pos.2) ((x, pos.2) :: cur)
  | .vertAbs y :: rest, pos, cur => collect rest (pos.1, y) ((pos.1, y) :: cur)
  | .closePath :: rest, pos, cur => cur.reverse :: collect rest (cur.getLastD pos) []

/-- The closed subpaths traced by a command list (initial current point (0,0)). -/
def subpaths (cmds : List PathCmd) : List (List (ℚ × ℚ)) := collect cmds (0, 0) []

/-- Vertex list of the first (outer) subpath of the emitted path. -/
def outerSubpath (w h hor vert : ℚ) : List (ℚ × ℚ) :=
  (subpaths (pathCmds w h hor vert)).getD 0 []

/-- Vertex list of the second (inner) subpath of the emitted path. -/
def innerSubpath (w h hor vert : ℚ) : List (ℚ × ℚ) :=
  (subpaths (pathCmds w h hor vert)).getD 1 []

/-- Cyclic cross-product sum for the shoelace formula: the second argument is
the first vertex of the polygon, to which the last vertex links back. -/
def crossSum : List (ℚ × ℚ) → ℚ × ℚ → ℚ
  | [], _ => 0
  | [p], first => p.1 * first.2 - first.1 * p.2
  | p :: q :: rest, first => (p.1 * q.2 - q.1 * p.2) + crossSum (q :: rest) first

/-- Signed area of a closed polygon by the shoelace formula (in screen
coordinates, y growing downwards). -/
def signedArea (ps : List (ℚ × ℚ)) : ℚ :=
  match ps with
  | [] => 0
  | p :: _ => crossSum ps p / 2

/-- An XML element of the host document: tag, attribute list, children. -/
structure XElem where
  tag : String
  attribs : List (String × String)
  children : List XElem

/-- `simplestyle.formatStyle`: join the properties as `key:value` pairs
separated by semicolons. -/
def formatStyle (props : List (String × String)) : String :=
  String.intercalate ";" (props.map fun kv => kv.1 ++ ":" ++ kv.2)

/-- The style dictionary passed to `simplestyle.formatStyle`
(overscan_margins.py line 85): no stroke, fixed gray fill. -/
def pathStyleProps : List (String × String) := [("stroke", "none"), ("fill", "#808080")]

/-- The path element created by `inkex.etree.SubElement(TheLayer, ...)`
(overscan_margins.py lines 80-103). -/
def pathElem (DrawingWidth DrawingHeight hormargin vertmargin : ℚ) : XElem :=
  { tag := "svg:path",
    attribs := [("style", formatStyle pathStyleProps),
                ("d", path_d DrawingWidth DrawingHeight hormargin vertmargin)],
    children := [] }

/-- The layer created by `NewLayer` (overscan_margins.py lines 36-42) after the
path child has been added to it: a `g` element with the Inkscape layer marker
and the computed label, holding exactly the one path element.  The Python code
appends the empty layer to the root first and then mutates the aliased child;
functionally this equals appending the completed layer. -/
def overscanLayer (DrawingWidth DrawingHeight hormargin vertmargin : ℚ) : XElem :=
  { tag := "g",
    attribs := [("inkscape:groupmode", "layer"),
                ("inkscape:label", layerLabel hormargin vertmargin)],
    children := [pathElem DrawingWidth DrawingHeight hormargin vertmargin] }

/-- The root of the host SVG document, as the effect sees it.  `width` and
`height` model `float(svg.attrib["width"])` / `float(svg.attrib["height"])`:
`none` stands for an absent attribute (Python `KeyError`) or an unparsable one
(Python `ValueError`); in both cases `effect` raises before building any path.
All other attributes and all existing children are carried unchanged. -/
structure SvgRoot where
  width : Option ℚ
  height : Option ℚ
  attribs : List (String × String)
  children : List XElem

/-- The layer the effect builds from the document dimensions and the two
option values; errors exactly when a dimension attribute is absent or
unparsable (the only failure in `OverscanEffect.effect`, which performs no
positivity check on the parsed numbers). -/
def emittedLayer (svg : SvgRoot) (hormargin vertmargin : ℚ) : Except Unit XElem :=
  match svg.width, svg.height with
  | some DrawingWidth, some DrawingHeight =>
      .ok (overscanLayer DrawingWidth DrawingHeight hormargin vertmargin)
  | _, _ => .error ()

/-- `OverscanEffect.effect` (overscan_margins.py lines 68-104): read the
dimensions, then append the new layer to the root element's children. -/
def effect (svg : SvgRoot) (hormargin vertmargin : ℚ) : Except Unit SvgRoot :=
  (emittedLayer svg hormargin vertmargin).map
    fun L => { svg with children := svg.children ++ [L] }

/-- The `"%.2f"`-formatted numeric literals of the `d` string, in emission
order (cf. `pathPieces`). -/
def pathNumerals (DrawingWidth DrawingHeight hormargin vertmargin : ℚ) : List String :=
  [ fmt2 0, fmt2 0,
    fmt2 DrawingWidth,
    fmt2 DrawingHeight,
    fmt2 0,
    fmt2 (HorMargin DrawingWidth hormargin),
    fmt2 (VertMargin DrawingWidth vertmargin),
    fmt2 (DrawingHeight - VertMargin DrawingWidth vertmargin),
    fmt2 (DrawingWidth - HorMargin DrawingWidth hormargin),
    fmt2 (VertMargin DrawingWidth vertmargin) ]

/-- The `"%.2f"`-formatted numeric literals of the layer label. -/
def labelNumerals (hormargin vertmargin : ℚ) : List String :=
  [fmt2 hormargin, fmt2 vertmargin]

/-- A string consists of an integer part free of decimal points, one decimal
point, and exactly two decimal digits after it. -/
def twoDecimals (s : String) : Prop :=
  ∃ intPart frac, s.data = intPart ++ '.' :: frac ∧ '.' ∉ intPart ∧
    frac.length = 2 ∧ ∀ c ∈ frac, c.isDigit = true

/-- The property claimed of the inner rectangle: every emitted vertex lies in
the box `[0, width] × [0, height]`. -/
def innerInBounds (w h hor vert : ℚ) : Prop :=
  ∀ p ∈ innerSubpath w h hor vert, 0 ≤ p.1 ∧ p.1 ≤ w ∧ 0 ≤ p.2 ∧ p.2 ≤ h

/-! Helper lemmas about the decimal formatter. -/

lemma digitChar_isDigit (m : Nat) (h : m < 10) : (Nat.digitChar m).isDigit = true := by
  interval_cases m <;> decide

lemma mem_natDigitsAux_isDigit :
    ∀ (fuel n : Nat), ∀ c ∈ natDigitsAux fuel n, c.isDigit = true := by
  intro fuel
  induction fuel with
  | zero => intro n c hc; simp [natDigitsAux] at hc
  | succ f ih =>
      intro n c hc
      by_cases h : n < 10
      · simp [natDigitsAux, h] at hc
        subst hc
        exact digitChar_isDigit n h
      · simp [natDigitsAux, h] at hc
        rcases hc with hc | hc
        · exact ih _ _ hc
        · subst hc
          exact digitChar_isDigit _ (Nat.mod_lt _ (by norm_num))

lemma isDigit_ne_dot {c : Char} (h : c.isDigit = true) : c ≠ '.' := by
  intro heq
  subst heq
  exact absurd h (by decide)

lemma natDigitsAux_small (fuel n : Nat) (hf : 0 < fuel) (h : n < 10) :
    natDigitsAux fuel n = [Nat.digitChar n] := by
  cases fuel with
  | zero => omega
  | succ f => simp [natDigitsAux, h]

lemma pad2_data (k : Nat) (hk : k < 100) :
    ∃ c1 c2, (pad2 k).data = [c1, c2] ∧ c1.isDigit = true ∧ c2.isDigit = true := by
  by_cases h : k < 10
  · refine ⟨'0', Nat.digitChar k, ?_, by decide, digitChar_isDigit k h⟩
    simp [pad2, h, natStr, natDigitsAux_small (k + 1) k (Nat.succ_pos k) h]
  · refine ⟨Nat.digitChar (k / 10), Nat.digitChar (k % 10), ?_,
      digitChar_isDigit _ (by omega), digitChar_isDigit _ (Nat.mod_lt _ (by norm_num))⟩
    have hdiv : k / 10 < 10 := by omega
    have hstep : natDigitsAux (k + 1) k = natDigitsAux k (k / 10) ++ [Nat.digitChar (k % 10)] := by
      simp [natDigitsAux, h]
    rw [pad2, if_neg h, natStr, hstep, natDigitsAux_small k (k / 10) (by omega) hdiv]
    rfl

lemma fmt2_twoDecimals (q : ℚ) : twoDecimals (fmt2 q) := by
  obtain ⟨c1, c2, hdata, h1, h2⟩ :=
    pad2_data ((round (q * 100)).natAbs % 100) (Nat.mod_lt _ (by norm_num))
  refine ⟨(if round (q * 100) < 0 then "-" else "").data ++
      natDigitsAux ((round (q * 100)).natAbs / 100 + 1) ((round (q * 100)).natAbs / 100),
      [c1, c2], ?_, ?_, rfl, ?_⟩
  · show (fmt2 q).data = _
    rw [fmt2]
    simp only [String.data_append, natStr]
    rw [hdata]
    simp
  · intro hmem
    rcases List.mem_append.mp hmem with hc | hc
    · split at hc <;> simp_all
    · exact isDigit_ne_dot (mem_natDigitsAux_isDigit _ _ _ hc) rfl
  · intro c hc
    simp at hc
    rcases hc with rfl | rfl
    · exact h1
    · exact h2

/-- Evaluation helper: once the rounded hundredths are known, the formatted
string is a concrete computation. -/
lemma fmt2_eval (q : ℚ) (n : Int) (h : round (q * 100) = n) :
    fmt2 q = (if n < 0 then "-" else "") ++ natStr (n.natAbs / 100) ++ "." ++
      pad2 (n.natAbs % 100) := by
  simp only [fmt2, h]

/-! Evaluation of the two subpaths and their signed areas. -/

lemma innerSubpath_eq (w h ph pv : ℚ) :
    innerSubpath w h ph pv =
      [(w * ph / 100, w * pv / 100),
       (w * ph / 100, h - w * pv / 100),
       (w - w * ph / 100, h - w * pv / 100),
       (w - w * ph / 100, w * pv / 100)] := by
  simp [innerSubpath, subpaths, pathCmds, collect, HorMargin, VertMargin]

lemma outerSubpath_eq (w h ph pv : ℚ) :
    outerSubpath w h ph pv = [(0, 0), (w, 0), (w, h), (0, h)] := by
  simp [outerSubpath, subpaths, pathCmds, collect, HorMargin, VertMargin]

lemma signedArea_outer (w h ph pv : ℚ) :
    signedArea (outerSubpath w h ph pv) = w * h := by
  rw [outerSubpath_eq]
  simp [signedArea, crossSum]

lemma signedArea_inner (w h ph pv : ℚ) :
    signedArea (innerSubpath w h ph pv) =
      (w * ph / 100 - (w - w * ph / 100)) * ((h - w * pv / 100) - w * pv / 100) := by
  rw [innerSubpath_eq]
  simp [signedArea, crossSum]
  ring

/-! The claims. -/

/-- C1 fails as stated: at width 1000, height 100, percentages 0 and 50 (all
within the claimed ranges), the inner rectangle's top edge sits at
y = 1000 * 50 / 100 = 500, far below the canvas bottom at height 100, because
the vertical margin is scaled from the width. -/
theorem C1_counterexample :
    0 < (1000:ℚ) ∧ 0 < (100:ℚ) ∧ (0:ℚ) ∈ Set.Icc (0:ℚ) 50 ∧ (50:ℚ) ∈ Set.Icc (0:ℚ) 50 ∧
    ¬ innerInBounds 1000 100 0 50 := by
  refine ⟨by norm_num, by norm_num, by simp, by simp, ?_⟩
  intro hcl
  have hmem : ((0:ℚ), (500:ℚ)) ∈ innerSubpath 1000 100 0 50 := by
    rw [innerSubpath_eq]
    norm_num
  have hb := (hcl (0, 500) hmem).2.2.2
  norm_num at hb

/-- C1 amended: for positive dimensions and percentages in [0, 50], the inner
rectangle lies within [0, width] × [0, height] provided additionally that the
vertical margin width * p_v / 100 (scaled from the width) does not exceed the
height. -/
theorem C1_inner_rectangle_in_bounds (w h ph pv : ℚ) (hw : 0 < w) (hh : 0 < h)
    (hph0 : 0 ≤ ph) (hph1 : ph ≤ 50) (hpv0 : 0 ≤ pv) (hpv1 : pv ≤ 50)
    (hvm : w * pv / 100 ≤ h) :
    innerInBounds w h ph pv := by
  have hA : 0 ≤ w * ph := mul_nonneg hw.le hph0
  have hB : w * ph ≤ w * 50 := mul_le_mul_of_nonneg_left hph1 hw.le
  have hC : 0 ≤ w * pv := mul_nonneg hw.le hpv0
  intro p hp
  rw [innerSubpath_eq] at hp
  simp only [List.mem_cons, List.not_mem_nil, or_false] at hp
  rcases hp with rfl | rfl | rfl | rfl <;>
    refine ⟨by linarith, by linarith, by linarith, by linarith⟩

/-- Witness for the amended C1 at width 1000, height 500, percentages 10, 5. -/
theorem C1_inner_rectangle_in_bounds_witness :
    innerInBounds 1000 500 10 5 :=
  C1_inner_rectangle_in_bounds 1000 500 10 5 (by norm_num) (by norm_num) (by norm_num)
    (by norm_num) (by norm_num) (by norm_num) (by norm_num)

/-- C4 fails as stated: at width 100, height 100, percentages 50 and 0 (all
within the claimed ranges), the inner rectangle collapses to a vertical
segment, its signed area is 0, and 0 does not have sign opposite to the outer
area 10000. -/
theorem C4_counterexample :
    0 < (100:ℚ) ∧ (50:ℚ) ∈ Set.Icc (0:ℚ) 50 ∧ (0:ℚ) ∈ Set.Icc (0:ℚ) 50 ∧
    ¬ (signedArea (outerSubpath 100 100 50 0) * signedArea (innerSubpath 100 100 50 0) < 0) := by
  refine ⟨by norm_num, by simp, by simp, ?_⟩
  rw [signedArea_outer, signedArea_inner]
  norm_num

/-- C4 amended: the outer and inner subpaths have signed areas of opposite
signs for positive dimensions, horizontal percentage in [0, 50), vertical
percentage in [0, 50], provided additionally the vertical margin
width * p_v / 100 is less than half the height (both degenerate cases the
original claim admitted are excluded). -/
theorem C4_opposite_winding (w h ph pv : ℚ) (hw : 0 < w) (hh : 0 < h)
    (hph0 : 0 ≤ ph) (hph1 : ph < 50) (hpv0 : 0 ≤ pv) (hpv1 : pv ≤ 50)
    (hvm : w * pv / 100 < h / 2) :
    signedArea (outerSubpath w h ph pv) * signedArea (innerSubpath w h ph pv) < 0 := by
  rw [signedArea_outer, signedArea_inner]
  have hB : w * ph < w * 50 := mul_lt_mul_of_pos_left hph1 hw
  have h1 : w * ph / 100 - (w - w * ph / 100) < 0 := by linarith
  have h2 : (0:ℚ) < (h - w * pv / 100) - w * pv / 100 := by linarith
  exact mul_neg_of_pos_of_neg (mul_pos hw hh) (mul_neg_of_neg_of_pos h1 h2)

/-- Witness for the amended C4 at width 100, height 100, percentages 10, 10. -/
theorem C4_opposite_winding_witness :
    signedArea (outerSubpath 100 100 10 10) * signedArea (innerSubpath 100 100 10 10) < 0 :=
  C4_opposite_winding 100 100 10 10 (by norm_num) (by norm_num) (by norm_num)
    (by norm_num) (by norm_num) (by norm_num) (by norm_num)

/-- C2: for every width, height and percentages, the margins are
`width * percent / 100` — both scaled from the canvas width, the vertical
margin not depending on the height — and the inner subpath traverses exactly
the four claimed corners in order. -/
theorem C2_margins_and_inner_corners (w h ph pv : ℚ) :
    HorMargin w ph = w * ph / 100 ∧ VertMargin w pv = w * pv / 100 ∧
    innerSubpath w h ph pv =
      [(w * ph / 100, w * pv / 100),
       (w * ph / 100, h - w * pv / 100),
       (w - w * ph / 100, h - w * pv / 100),
       (w - w * ph / 100, w * pv / 100)] := by
  refine ⟨rfl, rfl, ?_⟩
  simp [innerSubpath, subpaths, pathCmds, collect, HorMargin, VertMargin]

/-- C5: at width 1000, height 500, percentages 10 and 5, the margins are 100
and 50, the inner rectangle has corners (100,50), (100,450), (900,450),
(900,50), and the layer label is the exact string "Overscan 10.00%x5.00%". -/
theorem C5_concrete_example :
    HorMargin 1000 10 = 100 ∧ VertMargin 1000 5 = 50 ∧
    innerSubpath 1000 500 10 5 = [(100, 50), (100, 450), (900, 450), (900, 50)] ∧
    layerLabel 10 5 = "Overscan 10.00%x5.00%" := by
  refine ⟨by norm_num [HorMargin], by norm_num [VertMargin], ?_, ?_⟩
  · simp [innerSubpath, subpaths, pathCmds, collect, HorMargin, VertMargin]
    norm_num
  · rw [layerLabel,
      fmt2_eval 10 1000 (by rw [show ((10:ℚ) * 100) = ((1000:Int):ℚ) by norm_num, round_intCast]),
      fmt2_eval 5 500 (by rw [show ((5:ℚ) * 100) = ((500:Int):ℚ) by norm_num, round_intCast])]
    decide

/-- C7: with both percentages zero and positive dimensions, the inner subpath
has corners (0,0), (0,height), (width,height), (width,0) and coincides, as a
set of vertices, with the outer rectangle: the shaded band is degenerate. -/
theorem C7_zero_margins_inner_equals_outer (w h : ℚ) (hw : 0 < w) (hh : 0 < h) :
    innerSubpath w h 0 0 = [(0, 0), (0, h), (w, h), (w, 0)] ∧
    (∀ p : ℚ × ℚ, p ∈ innerSubpath w h 0 0 ↔ p ∈ outerSubpath w h 0 0) := by
  have hin : innerSubpath w h 0 0 = [(0, 0), (0, h), (w, h), (w, 0)] := by
    simp [innerSubpath, subpaths, pathCmds, collect, HorMargin, VertMargin]
  have hout : outerSubpath w h 0 0 = [(0, 0), (w, 0), (w, h), (0, h)] := by
    simp [outerSubpath, subpaths, pathCmds, collect, HorMargin, VertMargin]
  refine ⟨hin, ?_⟩
  intro p
  rw [hin, hout]
  simp only [List.mem_cons, List.not_mem_nil, or_false]
  tauto

/-- Witness for C7 at width 2, height 3. -/
theorem C7_zero_margins_witness :
    (0:ℚ) < 2 ∧ (0:ℚ) < 3 ∧
    (innerSubpath 2 3 0 0 = [(0, 0), (0, 3), (2, 3), (2, 0)] ∧
     (∀ p : ℚ × ℚ, p ∈ innerSubpath 2 3 0 0 ↔ p ∈ outerSubpath 2 3 0 0)) :=
  ⟨by norm_num, by norm_num,
   C7_zero_margins_inner_equals_outer 2 3 (by norm_num) (by norm_num)⟩

/-- C3 fails as stated: at width 0 (present and parsable) the effect does not
reject the dimensions — it succeeds and appends a degenerate overlay layer. -/
theorem C3_counterexample :
    effect ⟨some 0, some 100, [], []⟩ 10 5 =
      .ok ⟨some 0, some 100, [], [overscanLayer 0 100 10 5]⟩ := rfl

/-- C3 amended: only an absent (or unparsable) width or height attribute makes
the effect fail fast, before any path is built; zero or negative dimensions
are accepted unchecked and a degenerate path is emitted. -/
theorem C3_missing_dimension_fails_fast (svg : SvgRoot) (hor vert : ℚ)
    (h : svg.width = none ∨ svg.height = none) :
    effect svg hor vert = .error () := by
  obtain ⟨ow, oh, a, c⟩ := svg
  rcases h with h | h
  · simp only at h
    subst h
    rfl
  · simp only at h
    subst h
    cases ow <;> rfl

/-- Witness for the amended C3: width attribute absent. -/
theorem C3_missing_dimension_witness :
    effect ⟨none, some 100, [], []⟩ 10 5 = .error () :=
  C3_missing_dimension_fails_fast _ 10 5 (Or.inl rfl)

/-- C6: every formatted numeric literal emitted in the path-data string and in
the layer label has exactly two digits after the decimal point. -/
theorem C6_two_decimal_precision (w h ph pv : ℚ) (s : String)
    (hs : s ∈ pathNumerals w h ph pv ++ labelNumerals ph pv) :
    twoDecimals s := by
  rcases List.mem_append.mp hs with hmem | hmem
  · simp only [pathNumerals, List.mem_cons, List.not_mem_nil, or_false] at hmem
    rcases hmem with rfl | rfl | rfl | rfl | rfl | rfl | rfl | rfl | rfl | rfl <;>
      exact fmt2_twoDecimals _
  · simp only [labelNumerals, List.mem_cons, List.not_mem_nil, or_false] at hmem
    rcases hmem with rfl | rfl <;> exact fmt2_twoDecimals _

/-- Witness for C6: the literal for the width at the concrete spec example. -/
theorem C6_two_decimal_precision_witness :
    twoDecimals (fmt2 1000) :=
  C6_two_decimal_precision 1000 500 10 5 (fmt2 1000)
    (by simp [pathNumerals, labelNumerals])

/-- C8: the emitted layer (label string and path-data string included) is a
function of the width, the height and the two percentages alone: two documents
agreeing on those dimensions receive identical layers, whatever their other
attributes or children are, and there is no other state the computation could
read. -/
theorem C8_deterministic (svg1 svg2 : SvgRoot) (ph pv : ℚ)
    (hw : svg1.width = svg2.width) (hh : svg1.height = svg2.height) :
    emittedLayer svg1 ph pv = emittedLayer svg2 ph pv := by
  simp only [emittedLayer, hw, hh]

/-- Witness for C8: two documents with different attributes and children but
the same dimensions get the same layer. -/
theorem C8_deterministic_witness :
    emittedLayer ⟨some 1000, some 500, [("id", "a")], []⟩ 10 5 =
    emittedLayer ⟨some 1000, some 500, [("id", "b")], [⟨"rect", [], []⟩]⟩ 10 5 :=
  C8_deterministic _ _ 10 5 rfl rfl

/-- C9: with parsable dimensions, the effect returns the input document with
exactly one new group appended to its children; the group is a layer element
carrying the computed label and containing exactly one path child, and the
root's tag, attributes and pre-existing children are untouched. -/
theorem C9_appends_single_layer (svg : SvgRoot) (ph pv w h : ℚ)
    (hw : svg.width = some w) (hh : svg.height = some h) :
    effect svg ph pv =
      .ok { svg with children := svg.children ++ [overscanLayer w h ph pv] } ∧
    (overscanLayer w h ph pv).tag = "g" ∧
    (overscanLayer w h ph pv).attribs =
      [("inkscape:groupmode", "layer"), ("inkscape:label", layerLabel ph pv)] ∧
    (overscanLayer w h ph pv).children = [pathElem w h ph pv] ∧
    (pathElem w h ph pv).tag = "svg:path" := by
  refine ⟨?_, rfl, rfl, rfl, rfl⟩
  simp [effect, emittedLayer, hw, hh, Except.map]

/-- Witness for C9 on a concrete document. -/
theorem C9_appends_single_layer_witness :
    effect ⟨some 1000, some 500, [], []⟩ 10 5 =
      .ok ⟨some 1000, some 500, [], [overscanLayer 1000 500 10 5]⟩ ∧
    (overscanLayer 1000 500 10 5).tag = "g" ∧
    (overscanLayer 1000 500 10 5).attribs =
      [("inkscape:groupmode", "layer"), ("inkscape:label", layerLabel 10 5)] ∧
    (overscanLayer 1000 500 10 5).children = [pathElem 1000 500 10 5] ∧
    (pathElem 1000 500 10 5).tag = "svg:path" :=
  C9_appends_single_layer ⟨some 1000, some 500, [], []⟩ 10 5 1000 500 rfl rfl

/-- C10: for every input, the style attribute of the inserted path element is
the fixed string formatting stroke "none" and fill "#808080"; it does not
depend on width, height or the percentages. -/
theorem C10_fixed_style (w h ph pv : ℚ) :
    List.lookup "style" (pathElem w h ph pv).attribs = some (formatStyle pathStyleProps) ∧
    List.lookup "fill" pathStyleProps = some "#808080" ∧
    List.lookup "stroke" pathStyleProps = some "none" ∧
    formatStyle pathStyleProps = "stroke:none;fill:#808080" :=
  ⟨rfl, rfl, rfl, rfl⟩

end Overscan
